import Mathlib

/-!
# Verification of the GSuite PAWS collector's incremental-collection core

Shallow embedding of `collectors/gsuite/collector.js`: the collection-state
data model, the window scheduler (`_getNextCollectionState`,
`_getNextCollectionStateWithNextPage`), the quota-backoff state update and the
fetch dispatch of `pawsGetLogs`, the state initialisation
(`pawsInitCollectionState`), and the record framing (`pawsFormatLog`).

Timestamps are modelled as `Int` milliseconds since the epoch (the code keeps
them as ISO-8601 strings and manipulates them through `moment`, whose
arithmetic is plain millisecond arithmetic; `moment.diff(_, unit)` truncates
toward zero, embedded with `Int.tdiv`).  The wall clock read by `moment()` in
the code becomes an explicit `now` argument.  The JavaScript field `until`
is a Lean keyword, so the structure field is named `until_`.
-/

/-- The persisted per-target collection state of the GSuite collector
(`collector.js` initial states / `_getNextCollectionState` results).
`nextPage` is the pagination continuation token (`null`/absent ↦ `none`);
`apiQuotaResetDate` is `none` when the collector is not rate-limited. -/
structure CollectionState where
  application : String
  since : Int
  until_ : Int
  nextPage : Option String
  apiQuotaResetDate : Option Int
  poll_interval_sec : Int
  deriving DecidableEq, Repr

/-- Embedding of `_getNextCollectionState` (`collector.js`): the drained-window (case-4)
transition.  `nextSinceTs` is `now` when the current `until` is still in the
future, otherwise the current `until`; the catch-up width is 24 h when the
truncated hour difference exceeds 24, 1 h when it exceeds 1, else the
configured poll interval; the next delay is 1 s when the new `until` is more
than a poll interval in the past.  The returned object carries no `nextPage`
field (absent ↦ `none`) and a cleared `apiQuotaResetDate`. -/
def getNextCollectionState (pollInterval : Int) (now : Int)
    (curState : CollectionState) : CollectionState :=
  let nextSinceTs : Int := if now < curState.until_ then now else curState.until_
  let behindHours : Int := Int.tdiv (now - nextSinceTs) 3600000
  let nextUntil : Int :=
    if 24 < behindHours then nextSinceTs + 86400000
    else if 1 < behindHours then nextSinceTs + 3600000
    else nextSinceTs + pollInterval * 1000
  let nextPollInterval : Int :=
    if pollInterval < Int.tdiv (now - nextUntil) 1000 then 1 else pollInterval
  { application := curState.application
    since := nextSinceTs
    until_ := nextUntil
    nextPage := none
    apiQuotaResetDate := none
    poll_interval_sec := nextPollInterval }

/-- Embedding of `_getNextCollectionStateWithNextPage` (`collector.js`): the mid-window
(case-3) transition, keeping the window and target, installing the new token,
clearing the quota reset, and setting a 1-second poll interval. -/
def getNextCollectionStateWithNextPage (s : CollectionState)
    (nextPage : String) : CollectionState :=
  { application := s.application
    since := s.since
    until_ := s.until_
    nextPage := some nextPage
    apiQuotaResetDate := none
    poll_interval_sec := 1 }

/-- Value of `moment(t).endOf('day')` in milliseconds for a UTC-clocked runtime:
23:59:59.999 of the civil day containing `t` (floor division; `Int./` is
floor division for a positive divisor). -/
def endOfDayMs (t : Int) : Int := (t / 86400000 + 1) * 86400000 - 1

/-- Midnight strictly after `t` in milliseconds (start of the next civil
day); used only to state where the quota-reset timestamp lands. -/
def midnightAfter (t : Int) : Int := (t / 86400000 + 1) * 86400000

/-- The `dailyLimitExceeded` handler of `pawsGetLogs` (`collector.js`):
shift `now` back 8 hours to Pacific time, take the end of that Pacific day,
truncate the distance to whole seconds (`moment.diff(_, 'seconds')`), add a
60-second buffer, and store `now` plus that many seconds as
`apiQuotaResetDate`, with a 900-second cooldown poll interval; the window and
token are left untouched. -/
def quotaNextState (now : Int) (s : CollectionState) : CollectionState :=
  let pstCurrent : Int := now - 28800000
  let diffSeconds : Int := Int.tdiv (endOfDayMs pstCurrent - pstCurrent) 1000
  { s with poll_interval_sec := 900
           apiQuotaResetDate := some (now + (diffSeconds + 60) * 1000) }

/-- One upstream page response as seen by `utils.listEvents`: a successful
page of items with an optional `nextPageToken`, the distinguished
`dailyLimitExceeded` error, or any other error. -/
inductive PageResult (α : Type) where
  | ok (items : List α) (nextPageToken : Option String)
  | quotaError
  | otherError
  deriving DecidableEq, Repr

/-- Outcome of the paginated fetch: accumulated items plus the optional
continuation token, a quota failure (no items), or another failure. -/
inductive FetchOutcome (α : Type) where
  | done (accumulator : List α) (nextPage : Option String)
  | quota
  | fail
  deriving DecidableEq, Repr

/-- Prepend an earlier page's items to a fetch outcome's accumulator;
failures carry no items. -/
def FetchOutcome.prependItems {α : Type} (items : List α) :
    FetchOutcome α → FetchOutcome α
  | .done acc np => .done (items ++ acc) np
  | .quota => .quota
  | .fail => .fail

/-- Modelled from the spec: the page loop of `utils.listEvents`
(`collectors/gsuite/utils.js`, not present under `src/`), §4.2 of the spec.
`pages i` is the upstream's response to the `i`-th call (0-indexed);
`remaining` is the number of calls still allowed.  Each call accumulates its
items in upstream order; the loop stops with no continuation token when a
page has no `nextPageToken`, stops returning the token when the call budget
is exhausted first, and a `dailyLimitExceeded` error on any call discards
all accumulated items.  Returns the outcome and the number of calls made. -/
def listEventsFrom {α : Type} (pages : Nat → PageResult α) :
    Nat → Nat → FetchOutcome α × Nat
  | i, 0 =>
    match pages i with
    | .ok items tok => (.done items tok, 1)
    | .quotaError => (.quota, 1)
    | .otherError => (.fail, 1)
  | i, 1 =>
    match pages i with
    | .ok items tok => (.done items tok, 1)
    | .quotaError => (.quota, 1)
    | .otherError => (.fail, 1)
  | i, r + 2 =>
    match pages i with
    | .ok items none => (.done items none, 1)
    | .ok items (some _) =>
      let rest := listEventsFrom pages (i + 1) (r + 1)
      (FetchOutcome.prependItems items rest.1, rest.2 + 1)
    | .quotaError => (.quota, 1)
    | .otherError => (.fail, 1)

/-- Modelled from the spec: `utils.listEvents` entry point.  A page budget of
zero (or unset, per the spec) means one page only. -/
def listEvents {α : Type} (pages : Nat → PageResult α) (pageBudget : Nat) :
    FetchOutcome α × Nat :=
  listEventsFrom pages 0 (max pageBudget 1)

/-- What one `pawsGetLogs` invocation hands to its callback on the success
path: the collected records, the next state, the delay
(`newState.poll_interval_sec`), and — for auditing the "no fetch attempted"
guarantee — the number of upstream calls made. -/
structure GetLogsOut (α : Type) where
  records : List α
  nextState : CollectionState
  delay : Int
  calls : Nat
  deriving DecidableEq, Repr

/-- The post-guard body of `pawsGetLogs` (`collector.js`): run
`utils.listEvents` and dispatch on its result.  An undefined `nextPage`
yields the drained-window transition, a present one the same-window
pagination transition, a `dailyLimitExceeded` error the quota-backoff
update with empty records, and any other error propagates as a failure
(`Except.error`). -/
def pawsGetLogsFetch {α : Type} (pollInterval : Int) (now : Int)
    (s : CollectionState) (pages : Nat → PageResult α) (pageBudget : Nat) :
    Except Unit (GetLogsOut α) :=
  match listEvents pages pageBudget with
  | (.done accumulator none, calls) =>
    let newState := getNextCollectionState pollInterval now s
    .ok ⟨accumulator, newState, newState.poll_interval_sec, calls⟩
  | (.done accumulator (some nextPage), calls) =>
    let newState := getNextCollectionStateWithNextPage s nextPage
    .ok ⟨accumulator, newState, newState.poll_interval_sec, calls⟩
  | (.quota, calls) =>
    let newState := quotaNextState now s
    .ok ⟨[], newState, newState.poll_interval_sec, calls⟩
  | (.fail, _) => .error ()

/-- Embedding of `pawsGetLogs` (`collector.js`) (state/record/delay behaviour; the
credential plumbing and the request parameters are irrelevant to the
returned triple and are dropped).  If `apiQuotaResetDate` is set and `now`
is before it, the state is returned unchanged with no records, the state's
own poll interval, and zero upstream calls; otherwise the fetch body runs. -/
def pawsGetLogs {α : Type} (pollInterval : Int) (now : Int)
    (s : CollectionState) (pages : Nat → PageResult α) (pageBudget : Nat) :
    Except Unit (GetLogsOut α) :=
  match s.apiQuotaResetDate with
  | some resetDate =>
    if now < resetDate then
      .ok ⟨[], s, s.poll_interval_sec, 0⟩
    else
      pawsGetLogsFetch pollInterval now s pages pageBudget
  | none => pawsGetLogsFetch pollInterval now s pages pageBudget

/-- One state as produced by `pawsInitCollectionState` (`collector.js`):
`since` holds the configured start timestamp (`none` when the configured
string does not parse as a date — the code passes the raw invalid string
through), and `until` holds `moment(startTs).add(pollInterval,
'seconds').toISOString()`, which is `null` (`none`) when the start
timestamp is invalid. -/
structure InitCollectionState where
  application : String
  since : Option Int
  until_ : Option Int
  nextPage : Option String
  apiQuotaResetDate : Option Int
  poll_interval_sec : Int
  deriving DecidableEq, Repr

/-- Embedding of `pawsInitCollectionState` (`collector.js`).  `startTsEnv` is the parse
of the `paws_collection_start_ts` environment variable: outer `none` when
the variable is unset (the code then defaults to `now` minus 5 minutes),
`some none` when it is set but not a parsable date, `some (some t)` when it
parses to `t`.  `applicationNames` is the result of
`JSON.parse(paws_collector_param_string_2)`: `none` when that parse throws
(the exception escapes before the callback runs — `Except.error`), `some
apps` otherwise.  On success one state per application is produced together
with the 1-second initial delay. -/
def pawsInitCollectionState (startTsEnv : Option (Option Int)) (now : Int)
    (pollInterval : Int) (applicationNames : Option (List String)) :
    Except String (List InitCollectionState × Int) :=
  let startTs : Option Int :=
    match startTsEnv with
    | some raw => raw
    | none => some (now - 300000)
  let endTs : Option Int := startTs.map (fun t => t + pollInterval * 1000)
  match applicationNames with
  | none => .error "SyntaxError"
  | some apps =>
    .ok (apps.map (fun application =>
      { application := application
        since := startTs
        until_ := endTs
        nextPage := none
        apiQuotaResetDate := none
        poll_interval_sec := 1 }), 1)

/-- A fetch outcome stripped of quota errors, for stating the monotonicity
of state sequences: either the window was fully drained (no continuation
token) or more pages are pending with a new token. -/
inductive NQOutcome where
  | drained
  | page (tok : String)
  deriving DecidableEq, Repr

/-- The next-state component of one successful `pawsGetLogs` invocation
(`collector.js`): the unchanged state when the quota guard is active,
otherwise the case-3/case-4 transition selected by the fetch outcome. -/
def transitionNQ (pollInterval : Int) (now : Int) (o : NQOutcome)
    (s : CollectionState) : CollectionState :=
  match s.apiQuotaResetDate with
  | some resetDate =>
    if now < resetDate then s
    else
      match o with
      | .drained => getNextCollectionState pollInterval now s
      | .page tok => getNextCollectionStateWithNextPage s tok
  | none =>
    match o with
    | .drained => getNextCollectionState pollInterval now s
    | .page tok => getNextCollectionStateWithNextPage s tok

/-- Run a sequence of quota-error-free invocations: each list element is the
wall-clock time of the invocation and its fetch outcome. -/
def runNQ (pollInterval : Int) : CollectionState →
    List (Int × NQOutcome) → CollectionState
  | s, [] => s
  | s, (now, o) :: rest => runNQ pollInterval (transitionNQ pollInterval now o s) rest

/-- Holds (as `true`) when `t` bounds every element of `l` from below and `l` is non-decreasing: the invocation
clocks of a trace move forward. -/
def timesMono (t : Int) : List Int → Bool
  | [] => true
  | x :: xs => decide (t ≤ x) && timesMono x xs

/-- The inductive invariant of reachable collection states relative to the
time `t` of the last transition: the window is well-formed and its end is
at most one poll interval past `t`. -/
def StateInv (pollInterval : Int) (s : CollectionState) (t : Int) : Prop :=
  s.since ≤ s.until_ ∧ s.since ≤ t ∧ s.until_ ≤ t + pollInterval * 1000

/-- A JSON-like value standing for a raw GSuite event object. -/
inductive Json where
  | str (s : String)
  | num (n : Int)
  | obj (fields : List (String × Json))
  | arr (xs : List Json)
  | bool (b : Bool)
  | null

/-- Look up a key in the field list of a JSON object (first match wins). -/
def jsonLookup (key : String) : List (String × Json) → Option Json
  | [] => none
  | (k, v) :: rest => if k = key then some v else jsonLookup key rest

/-- Follow a path of keys through nested JSON objects. -/
def jsonGetPath (j : Json) : List String → Option Json
  | [] => some j
  | key :: rest =>
    match j with
    | .obj fields =>
      match jsonLookup key fields with
      | some v => jsonGetPath v rest
      | none => none
    | _ => none

/-- Modelled from the spec: the candidate-path lookup of
`al-collector-js`'s `Parse` helpers (not under `src/`) — "looked up via a
documented set of candidate JSON paths, first match wins" (§4.3). -/
def getFirstMatch (msg : Json) : List (List String) → Option Json
  | [] => none
  | p :: rest =>
    match jsonGetPath msg p with
    | some v => some v
    | none => getFirstMatch msg rest

/-- The extracted event timestamp: seconds plus an optional sub-second
microsecond component (spec §4.3); either may be absent when the lookup or
the parse fails. -/
structure MsgTs where
  sec : Option Int
  usec : Option Int
  deriving DecidableEq, Repr

/-- Embedding of `tsPaths` (`collector.js`): the single candidate path `id.time`. -/
def tsPaths : List (List String) := [["id", "time"]]

/-- Embedding of `typeIdPaths` (`collector.js`): the single candidate path `kind`. -/
def typeIdPaths : List (List String) := [["kind"]]

/-- Modelled from the spec: `parse.getMsgTs` of `al-collector-js` (not under
`src/`) — extract "seconds + optional sub-second microsecond component" at
the first matching candidate path; lookup failure is non-fatal and yields
absent components (§4.3).  Numeric timestamp values are modelled as epoch
microseconds. -/
def getMsgTs (msg : Json) (paths : List (List String)) : MsgTs :=
  match getFirstMatch msg paths with
  | some (.num n) => { sec := some (n / 1000000), usec := some (n % 1000000) }
  | some _ => { sec := none, usec := none }
  | none => { sec := none, usec := none }

/-- Modelled from the spec: `parse.getMsgTypeId` of `al-collector-js` (not
under `src/`) — the value at the first matching candidate path, absent when
no path matches (§4.3). -/
def getMsgTypeId (msg : Json) (paths : List (List String)) : Option Json :=
  getFirstMatch msg paths

/-- The framed log record built by `pawsFormatLog` (`collector.js`).  The
`message` payload carries the full original event (its JSON serialization in
the code); `messageTs` is the field the code sets unconditionally from
`ts.sec` (absent when the lookup failed), `messageTypeId` is set only for a
non-null lookup result, and `messageTsUs` only for a truthy (non-zero)
microsecond component. -/
structure FormattedMsg where
  messageTs : Option Int
  priority : Int
  progName : String
  message : Json
  messageType : String
  messageTypeId : Option Json
  messageTsUs : Option Int

/-- Embedding of `pawsFormatLog` (`collector.js`). -/
def pawsFormatLog (msg : Json) : FormattedMsg :=
  let ts := getMsgTs msg tsPaths
  let typeId := getMsgTypeId msg typeIdPaths
  { messageTs := ts.sec
    priority := 11
    progName := "GsuiteCollector"
    message := msg
    messageType := "json/gsuite"
    messageTypeId := typeId
    messageTsUs :=
      match ts.usec with
      | some u => if u = 0 then none else some u
      | none => none }

/-- The items of the `i`-th upstream page (empty for error responses). -/
def pageItems {α : Type} (pages : Nat → PageResult α) (i : Nat) : List α :=
  match pages i with
  | .ok items _ => items
  | _ => []

/-- The concatenation, in upstream order, of the items of `n` consecutive
pages starting at page `i`. -/
def itemsConcatFrom {α : Type} (pages : Nat → PageResult α) :
    Nat → Nat → List α
  | _, 0 => []
  | i, n + 1 => pageItems pages i ++ itemsConcatFrom pages (i + 1) n

/-- The `nextPageToken` of the `i`-th upstream page (`none` for errors). -/
def pageToken {α : Type} (pages : Nat → PageResult α) (i : Nat) :
    Option String :=
  match pages i with
  | .ok _ tok => tok
  | _ => none

/-- The continuation token carried by a fetch outcome (`none` on failure). -/
def FetchOutcome.nextOf {α : Type} : FetchOutcome α → Option String
  | .done _ np => np
  | .quota => none
  | .fail => none

/-- A concrete upstream for the three-page scenario: tokens on pages 1 and 2
(0-indexed pages 0 and 1), none on page 3. -/
def scenarioPages : Nat → PageResult Nat := fun i =>
  if i = 0 then .ok [10] (some "t1")
  else if i = 1 then .ok [20] (some "t2")
  else if i = 2 then .ok [30] none
  else .ok [] none

/-- A concrete upstream whose second call signals `dailyLimitExceeded`. -/
def quotaOnPage2 : Nat → PageResult Nat := fun i =>
  if i = 0 then .ok [10] (some "t1") else .quotaError

/-- C1, counterexample.  The claim's scenario — state `{since: 0, until:
60000 ms, poll interval 60 s}`, drained at `now = 65000 ms` — does **not**
yield `since = 65000`: `_getNextCollectionState` keeps the previous `until`
(60000) because `until` is not in the future; only a future-dated `until`
is replaced by `now`. -/
theorem c1_since_counterexample :
    (getNextCollectionState 60 65000
      { application := "reports", since := 0, until_ := 60000,
        nextPage := none, apiQuotaResetDate := none,
        poll_interval_sec := 60 }).since ≠ 65000 := by decide

/-- C1, amended.  For every drained-window transition the next `since` is
the **earlier** of the previous `until` and `now` (a future-dated `until`
is clamped to `now`, so the next window never starts in the future); in the
claim's scenario the next state is `since = 60000`, `until = 120000`, and
the delay is the configured poll interval 60 (collection is not behind). -/
theorem c1_drained_since_clamped :
    (∀ (pollInterval now : Int) (s : CollectionState),
      (getNextCollectionState pollInterval now s).since = min s.until_ now) ∧
    getNextCollectionState 60 65000
      { application := "reports", since := 0, until_ := 60000,
        nextPage := none, apiQuotaResetDate := none, poll_interval_sec := 60 }
      = { application := "reports", since := 60000, until_ := 120000,
          nextPage := none, apiQuotaResetDate := none,
          poll_interval_sec := 60 } := by
  refine ⟨fun pollInterval now s => ?_, by decide⟩
  simp only [getNextCollectionState]
  split <;> omega

/-- C2.  For every drained-window transition the next window width —
`until` minus `since` of the produced state — is 24 h (86400000 ms) when
the collector is more than 24 truncated hours behind, 1 h when more than 1,
and the configured poll interval otherwise, so the next `until` is the next
`since` plus that width; and in particular, in the claim's 48-hours-behind
scenario the width is exactly 24 hours, never more. -/
theorem c2_catchup_width :
    (∀ (pollInterval now : Int) (s : CollectionState),
      (getNextCollectionState pollInterval now s).until_
        = (getNextCollectionState pollInterval now s).since +
          (if 24 < Int.tdiv (now - (getNextCollectionState pollInterval now s).since) 3600000
           then 86400000
           else if 1 < Int.tdiv (now - (getNextCollectionState pollInterval now s).since) 3600000
           then 3600000
           else pollInterval * 1000)) ∧
    getNextCollectionState 60 172860000
      { application := "reports", since := 0, until_ := 60000,
        nextPage := none, apiQuotaResetDate := none, poll_interval_sec := 60 }
      = { application := "reports", since := 60000, until_ := 86460000,
          nextPage := none, apiQuotaResetDate := none,
          poll_interval_sec := 1 } := by
  refine ⟨fun pollInterval now s => ?_, by decide⟩
  simp only [getNextCollectionState]
  split <;> omega

/-- C5.  On an outcome carrying a continuation token the transition keeps
the target, `since` and `until` exactly, sets the token, clears
`apiQuotaResetDate`, and sets the 1-second poll interval; correspondingly a
`pawsGetLogs` run whose single fetched page carries a token returns the
page's items, that state, and the minimal delay 1 after one call. -/
theorem c5_next_page_frame :
    (∀ (s : CollectionState) (tok : String),
      getNextCollectionStateWithNextPage s tok
        = { application := s.application, since := s.since,
            until_ := s.until_, nextPage := some tok,
            apiQuotaResetDate := none, poll_interval_sec := 1 }) ∧
    (∀ (α : Type) (pollInterval now : Int) (s : CollectionState)
        (items : List α) (tok : String),
      pawsGetLogs pollInterval now { s with apiQuotaResetDate := none }
          (fun _ => PageResult.ok items (some tok)) 1
        = Except.ok
            ⟨items,
             getNextCollectionStateWithNextPage
               { s with apiQuotaResetDate := none } tok,
             1, 1⟩) := by
  exact ⟨fun s tok => rfl, fun α pollInterval now s items tok => rfl⟩

/-- C10, counterexample.  An unparsable start timestamp is **not** fatal:
with `paws_collection_start_ts` set to a string `moment` cannot parse and a
well-formed target list, `pawsInitCollectionState` still produces one
collection state per target (carrying the invalid timestamps) instead of
refusing. -/
theorem c10_start_ts_counterexample :
    pawsInitCollectionState (some none) 0 60 (some ["login"])
      = Except.ok
          ([{ application := "login", since := none, until_ := none,
              nextPage := none, apiQuotaResetDate := none,
              poll_interval_sec := 1 }], 1) := rfl

/-- C10, amended.  A malformed target list (`JSON.parse` failure on
`paws_collector_param_string_2`) is fatal at initialization — the exception
escapes before any state is produced; an unparsable start timestamp,
however, is not fatal: initialization succeeds and emits one state per
target whose `since`/`until` carry the invalid (unparsable / `null`)
timestamps. -/
theorem c10_init_failure_semantics :
    (∀ (startTsEnv : Option (Option Int)) (now pollInterval : Int),
      pawsInitCollectionState startTsEnv now pollInterval none
        = Except.error "SyntaxError") ∧
    (∀ (now pollInterval : Int) (apps : List String),
      pawsInitCollectionState (some none) now pollInterval (some apps)
        = Except.ok
            (apps.map (fun application =>
              { application := application, since := none, until_ := none,
                nextPage := none, apiQuotaResetDate := none,
                poll_interval_sec := 1 }), 1)) := by
  refine ⟨fun startTsEnv now pollInterval => ?_, fun now pollInterval apps => rfl⟩
  cases startTsEnv <;> rfl

/-- C3.  While `apiQuotaResetDate` is set and `now` is before it,
`pawsGetLogs` returns the state unchanged (every field, including `since`,
`until`, token and quota fields), an empty record list, a delay equal to
the state's own `poll_interval_sec`, and makes zero upstream calls — no
fetch is attempted and no window advancement occurs, regardless of what the
upstream would have answered. -/
theorem c3_quota_guard_skips_fetch (pollInterval now : Int)
    (s : CollectionState) (resetDate : Int)
    (hset : s.apiQuotaResetDate = some resetDate) (hbefore : now < resetDate) :
    ∀ (α : Type) (pages : Nat → PageResult α) (pageBudget : Nat),
      pawsGetLogs pollInterval now s pages pageBudget
        = Except.ok ⟨[], s, s.poll_interval_sec, 0⟩ := by
  intro α pages pageBudget
  simp [pawsGetLogs, hset, hbefore]

/-- C3, witness: a rate-limited state at `now = 50 < resetDate = 100` is
returned unchanged with no records, its own 900-second delay, and zero
upstream calls, even though the upstream would have answered a page. -/
theorem c3_quota_guard_skips_fetch_witness :
    pawsGetLogs 60 50
      { application := "login", since := 0, until_ := 60000,
        nextPage := none, apiQuotaResetDate := some 100,
        poll_interval_sec := 900 }
      (fun _ => PageResult.ok [7] (some "t")) 3
      = Except.ok
          ⟨[],
           { application := "login", since := 0, until_ := 60000,
             nextPage := none, apiQuotaResetDate := some 100,
             poll_interval_sec := 900 },
           900, 0⟩ :=
  c3_quota_guard_skips_fetch 60 50
    { application := "login", since := 0, until_ := 60000,
      nextPage := none, apiQuotaResetDate := some 100,
      poll_interval_sec := 900 }
    100 rfl (by decide) Nat (fun _ => PageResult.ok [7] (some "t")) 3

/-- C9.  Record framing never drops a record: for every raw event the
framed record carries the full original event as its message payload with
the fixed `json/gsuite` type tag, priority 11 and program name; an event on
which the timestamp lookup fails is still framed, merely with the optional
timestamp fields absent (shown both for the concrete empty object and for
every event whose `id.time` lookup fails). -/
theorem c9_framing_total :
    (∀ (msg : Json),
      (pawsFormatLog msg).message = msg ∧
      (pawsFormatLog msg).priority = 11 ∧
      (pawsFormatLog msg).messageType = "json/gsuite" ∧
      (pawsFormatLog msg).progName = "GsuiteCollector") ∧
    pawsFormatLog (Json.obj [])
      = { messageTs := none, priority := 11, progName := "GsuiteCollector",
          message := Json.obj [], messageType := "json/gsuite",
          messageTypeId := none, messageTsUs := none } ∧
    (∀ (msg : Json), getFirstMatch msg tsPaths = none →
      (pawsFormatLog msg).messageTs = none ∧
      (pawsFormatLog msg).messageTsUs = none) := by
  refine ⟨fun msg => ⟨rfl, rfl, rfl, rfl⟩, rfl, fun msg h => ?_⟩
  simp [pawsFormatLog, getMsgTs, h]

/-- C9, witness: framing the bare `null` event (both lookups fail) still
emits a record, with the optional timestamp fields absent. -/
theorem c9_framing_total_witness :
    (pawsFormatLog Json.null).messageTs = none ∧
    (pawsFormatLog Json.null).messageTsUs = none :=
  c9_framing_total.2.2 Json.null rfl

/-- Helper: a `dailyLimitExceeded` answer to the first call makes the page
loop report a quota failure after exactly one call, for any remaining
budget. -/
theorem listEventsFrom_quota_first {α : Type} (pages : Nat → PageResult α)
    (i : Nat) (hq : pages i = PageResult.quotaError) :
    ∀ (remaining : Nat), listEventsFrom pages i remaining
      = (FetchOutcome.quota, 1) := by
  intro remaining
  match remaining with
  | 0 => simp [listEventsFrom, hq]
  | 1 => simp [listEventsFrom, hq]
  | r + 2 => simp [listEventsFrom, hq]

/-- C4.  The `QuotaExceeded` transition at time `now` keeps the window
(`since`, `until`), the target and the token untouched, sets the fixed
900-second (15-minute) cooldown, and installs an `apiQuotaResetDate` that
is strictly after `now` and lands between 59 and 60 seconds after the
upcoming midnight of the fixed UTC-8 (Pacific) rate-limit reference frame;
a `pawsGetLogs` run whose fetch hits the daily limit returns that state
with an empty record list and the 900-second delay. -/
theorem c4_quota_exceeded_backoff :
    (∀ (now : Int) (s : CollectionState),
      (quotaNextState now s).since = s.since ∧
      (quotaNextState now s).until_ = s.until_ ∧
      (quotaNextState now s).application = s.application ∧
      (quotaNextState now s).nextPage = s.nextPage ∧
      (quotaNextState now s).poll_interval_sec = 900 ∧
      ∃ resetDate,
        (quotaNextState now s).apiQuotaResetDate = some resetDate ∧
        now < resetDate ∧
        midnightAfter (now - 28800000) + 59000 ≤ resetDate - 28800000 ∧
        resetDate - 28800000 < midnightAfter (now - 28800000) + 60000) ∧
    (∀ (α : Type) (pollInterval now : Int) (s : CollectionState)
        (pageBudget : Nat),
      pawsGetLogs pollInterval now { s with apiQuotaResetDate := none }
          (fun _ => (PageResult.quotaError : PageResult α)) pageBudget
        = Except.ok
            ⟨[], quotaNextState now { s with apiQuotaResetDate := none },
             900, 1⟩) := by
  constructor
  · intro now s
    refine ⟨rfl, rfl, rfl, rfl, rfl, ?_⟩
    have hx : 0 ≤ ((now - 28800000) / 86400000 + 1) * 86400000 - 1
        - (now - 28800000) := by omega
    have ht : Int.tdiv (((now - 28800000) / 86400000 + 1) * 86400000 - 1
          - (now - 28800000)) 1000
        = (((now - 28800000) / 86400000 + 1) * 86400000 - 1
          - (now - 28800000)) / 1000 :=
      Int.tdiv_eq_ediv hx (by norm_num)
    refine ⟨now + (Int.tdiv (endOfDayMs (now - 28800000) - (now - 28800000))
      1000 + 60) * 1000, ?_, ?_, ?_, ?_⟩
    · simp [quotaNextState]
    · simp only [endOfDayMs, ht]; omega
    · simp only [midnightAfter, endOfDayMs, ht]; omega
    · simp only [midnightAfter, endOfDayMs, ht]; omega
  · intro α pollInterval now s pageBudget
    have h := listEventsFrom_quota_first
      (fun _ => (PageResult.quotaError : PageResult α)) 0 rfl
      (max pageBudget 1)
    simp [pawsGetLogs, pawsGetLogsFetch, listEvents, h, quotaNextState]

/-- Helper: one drained-window transition taken at a time `now` no earlier
than the time `t` of the previous transition preserves the state invariant
and moves both window bounds forward. -/
theorem getNextCollectionState_mono (pollInterval now t : Int)
    (s : CollectionState) (hpi : 0 < pollInterval)
    (hinv : StateInv pollInterval s t) (ht : t ≤ now) :
    StateInv pollInterval (getNextCollectionState pollInterval now s) now ∧
    s.since ≤ (getNextCollectionState pollInterval now s).since ∧
    s.until_ ≤ (getNextCollectionState pollInterval now s).until_ := by
  obtain ⟨h1, h2, h3⟩ := hinv
  by_cases hfut : now < s.until_
  · have hz : Int.tdiv (now - now) 3600000 = 0 := by
      simp [Int.sub_self]
    simp only [StateInv, getNextCollectionState, if_pos hfut, hz]
    norm_num
    omega
  · push_neg at hfut
    have hx : 0 ≤ now - s.until_ := by omega
    have hq : Int.tdiv (now - s.until_) 3600000 = (now - s.until_) / 3600000 :=
      Int.tdiv_eq_ediv hx (by norm_num)
    simp only [StateInv, getNextCollectionState, if_neg (not_lt.mpr hfut), hq]
    split_ifs with h24 h1h <;> omega

/-- Helper: the next-state component of any quota-error-free invocation
preserves the state invariant and moves both window bounds forward. -/
theorem transitionNQ_mono (pollInterval now t : Int) (o : NQOutcome)
    (s : CollectionState) (hpi : 0 < pollInterval)
    (hinv : StateInv pollInterval s t) (ht : t ≤ now) :
    StateInv pollInterval (transitionNQ pollInterval now o s) now ∧
    s.since ≤ (transitionNQ pollInterval now o s).since ∧
    s.until_ ≤ (transitionNQ pollInterval now o s).until_ := by
  obtain ⟨h1, h2, h3⟩ := hinv
  have hkeep : StateInv pollInterval s now ∧ s.since ≤ s.since ∧
      s.until_ ≤ s.until_ := ⟨⟨h1, by omega, by omega⟩, le_refl _, le_refl _⟩
  have hpage : ∀ tok,
      StateInv pollInterval (getNextCollectionStateWithNextPage s tok) now ∧
      s.since ≤ (getNextCollectionStateWithNextPage s tok).since ∧
      s.until_ ≤ (getNextCollectionStateWithNextPage s tok).until_ := by
    intro tok
    simp only [StateInv, getNextCollectionStateWithNextPage]
    refine ⟨⟨h1, by omega, by omega⟩, le_refl _, le_refl _⟩
  have hdrain := getNextCollectionState_mono pollInterval now t s hpi
    ⟨h1, h2, h3⟩ ht
  unfold transitionNQ
  match hres : s.apiQuotaResetDate with
  | some resetDate =>
    by_cases hb : now < resetDate
    · simpa [hb] using hkeep
    · cases o with
      | drained => simpa [hb] using hdrain
      | page tok => simpa [hb] using hpage tok
  | none =>
    cases o with
    | drained => exact hdrain
    | page tok => exact hpage tok

/-- C6.  Along every sequence of quota-error-free invocations whose clock
times are non-decreasing (and no earlier than the time `t0` the starting
state was produced at), `since` and `until` are non-decreasing from the
starting state, and the reached state again satisfies `since ≤ until` —
given a positive configured poll interval and a starting state satisfying
the reachable-state invariant at `t0`. -/
theorem c6_window_monotonicity (pollInterval t0 : Int) (s : CollectionState)
    (tr : List (Int × NQOutcome)) (hpi : 0 < pollInterval)
    (hinv : StateInv pollInterval s t0)
    (htimes : timesMono t0 (tr.map Prod.fst) = true) :
    s.since ≤ (runNQ pollInterval s tr).since ∧
    s.until_ ≤ (runNQ pollInterval s tr).until_ ∧
    (runNQ pollInterval s tr).since ≤ (runNQ pollInterval s tr).until_ := by
  induction tr generalizing s t0 with
  | nil => exact ⟨le_refl _, le_refl _, hinv.1⟩
  | cons head rest ih =>
    obtain ⟨now, o⟩ := head
    simp only [List.map_cons, timesMono, Bool.and_eq_true,
      decide_eq_true_eq] at htimes
    obtain ⟨hle, hrest⟩ := htimes
    have hstep := transitionNQ_mono pollInterval now t0 o s hpi hinv hle
    have htail := ih now (transitionNQ pollInterval now o s) hstep.1 hrest
    simp only [runNQ]
    exact ⟨le_trans hstep.2.1 htail.1, le_trans hstep.2.2 htail.2.1,
      htail.2.2⟩

/-- C6, witness: a concrete two-step quota-error-free run (a drain at
`now = 70000` then a page fetch at `now = 70000`) from the state
`{since := 0, until := 60000}` keeps `since` and `until` non-decreasing
and ends with `since ≤ until`. -/
theorem c6_window_monotonicity_witness :
    (0 : Int) ≤ (runNQ 60
      { application := "login", since := 0, until_ := 60000,
        nextPage := none, apiQuotaResetDate := none, poll_interval_sec := 60 }
      [(70000, NQOutcome.drained), (70000, NQOutcome.page "t")]).since ∧
    (60000 : Int) ≤ (runNQ 60
      { application := "login", since := 0, until_ := 60000,
        nextPage := none, apiQuotaResetDate := none, poll_interval_sec := 60 }
      [(70000, NQOutcome.drained), (70000, NQOutcome.page "t")]).until_ ∧
    (runNQ 60
      { application := "login", since := 0, until_ := 60000,
        nextPage := none, apiQuotaResetDate := none, poll_interval_sec := 60 }
      [(70000, NQOutcome.drained), (70000, NQOutcome.page "t")]).since ≤
    (runNQ 60
      { application := "login", since := 0, until_ := 60000,
        nextPage := none, apiQuotaResetDate := none, poll_interval_sec := 60 }
      [(70000, NQOutcome.drained), (70000, NQOutcome.page "t")]).until_ :=
  c6_window_monotonicity 60 0
    { application := "login", since := 0, until_ := 60000,
      nextPage := none, apiQuotaResetDate := none, poll_interval_sec := 60 }
    [(70000, NQOutcome.drained), (70000, NQOutcome.page "t")]
    (by decide) ⟨by decide, by decide, by decide⟩ (by decide)

/-- Helper: when the first `k` responses starting at page `i` carry tokens
and the `k`-th carries none, the page loop with `remaining ≥ 1` allowed
calls makes `min (k+1) remaining` calls, concatenates the items of exactly
the fetched pages in order, and reports the last fetched page's token
precisely when the budget ran out first. -/
theorem listEventsFrom_ok {α : Type} (pages : Nat → PageResult α) :
    ∀ (remaining i k : Nat), 1 ≤ remaining →
    (∀ j, j < k → ∃ its t, pages (i + j) = PageResult.ok its (some t)) →
    (∃ its, pages (i + k) = PageResult.ok its none) →
    listEventsFrom pages i remaining
      = (FetchOutcome.done (itemsConcatFrom pages i (min (k + 1) remaining))
          (if remaining ≤ k then pageToken pages (i + remaining - 1) else none),
        min (k + 1) remaining) := by
  intro remaining
  induction remaining using Nat.strong_induction_on with
  | _ remaining IH =>
    intro i k hrem hok hend
    match remaining, hrem with
    | 1, _ =>
      cases k with
      | zero =>
        obtain ⟨its, hits⟩ := hend
        rw [Nat.add_zero] at hits
        simp [listEventsFrom, hits, itemsConcatFrom, pageItems]
      | succ k' =>
        obtain ⟨its, t, hits⟩ := hok 0 (Nat.succ_pos k')
        rw [Nat.add_zero] at hits
        simp [listEventsFrom, hits, itemsConcatFrom, pageItems, pageToken]
    | r + 2, _ =>
      cases k with
      | zero =>
        obtain ⟨its, hits⟩ := hend
        rw [Nat.add_zero] at hits
        simp [listEventsFrom, hits, itemsConcatFrom, pageItems]
      | succ k' =>
        obtain ⟨its, t, hits⟩ := hok 0 (Nat.succ_pos k')
        rw [Nat.add_zero] at hits
        have hok' : ∀ j, j < k' → ∃ its2 t2,
            pages (i + 1 + j) = PageResult.ok its2 (some t2) := by
          intro j hj
          obtain ⟨its2, t2, h2⟩ := hok (j + 1) (Nat.succ_lt_succ hj)
          exact ⟨its2, t2, by rw [show i + 1 + j = i + (j + 1) by omega]; exact h2⟩
        have hend' : ∃ its2, pages (i + 1 + k') = PageResult.ok its2 none := by
          obtain ⟨its2, h2⟩ := hend
          exact ⟨its2, by rw [show i + 1 + k' = i + (k' + 1) by omega]; exact h2⟩
        have hrec := IH (r + 1) (by omega) (i + 1) k' (by omega) hok' hend'
        have hmin : min (k' + 1 + 1) (r + 2) = min (k' + 1) (r + 1) + 1 := by
          omega
        have hidx : i + 1 + (r + 1) - 1 = i + (r + 2) - 1 := by omega
        by_cases hck : r + 1 ≤ k'
        · simp [listEventsFrom, hits, hrec, FetchOutcome.prependItems, hmin,
            hidx, itemsConcatFrom, pageItems, hck,
            show r + 2 ≤ k' + 1 by omega]
        · simp [listEventsFrom, hits, hrec, FetchOutcome.prependItems, hmin,
            itemsConcatFrom, pageItems, hck,
            show ¬(r + 2 ≤ k' + 1) by omega]

/-- Helper: when the first `m` responses starting at page `i` carry tokens
and the `m`-th call signals `dailyLimitExceeded` within the budget, the
page loop reports a quota failure — with no items — after `m + 1` calls. -/
theorem listEventsFrom_quota {α : Type} (pages : Nat → PageResult α) :
    ∀ (remaining i m : Nat), m < remaining →
    (∀ j, j < m → ∃ its t, pages (i + j) = PageResult.ok its (some t)) →
    pages (i + m) = PageResult.quotaError →
    listEventsFrom pages i remaining = (FetchOutcome.quota, m + 1) := by
  intro remaining
  induction remaining using Nat.strong_induction_on with
  | _ remaining IH =>
    intro i m hm hok hq
    match remaining, hm with
    | 1, _ =>
      have hm0 : m = 0 := by omega
      subst hm0
      rw [Nat.add_zero] at hq
      simp [listEventsFrom, hq]
    | r + 2, _ =>
      cases m with
      | zero =>
        rw [Nat.add_zero] at hq
        simp [listEventsFrom, hq]
      | succ m' =>
        obtain ⟨its, t, hits⟩ := hok 0 (Nat.succ_pos m')
        rw [Nat.add_zero] at hits
        have hok' : ∀ j, j < m' → ∃ its2 t2,
            pages (i + 1 + j) = PageResult.ok its2 (some t2) := by
          intro j hj
          obtain ⟨its2, t2, h2⟩ := hok (j + 1) (Nat.succ_lt_succ hj)
          exact ⟨its2, t2, by rw [show i + 1 + j = i + (j + 1) by omega]; exact h2⟩
        have hq' : pages (i + 1 + m') = PageResult.quotaError := by
          rw [show i + 1 + m' = i + (m' + 1) by omega]; exact hq
        have hrec := IH (r + 1) (by omega) (i + 1) m' (by omega) hok' hq'
        simp [listEventsFrom, hits, hrec, FetchOutcome.prependItems]

/-- C7.  For every upstream whose first `k` pages carry a `nextPageToken`
and whose `(k+1)`-st does not, and every positive page budget, the fetch
loop makes exactly `min (k+1) pageBudget` calls, returns the items of the
fetched pages concatenated in upstream order, and returns a continuation
token — the last fetched page's — if and only if the budget was reached
before the upstream omitted the token. -/
theorem c7_fetcher_budget {α : Type} (pages : Nat → PageResult α)
    (k pageBudget : Nat) (hb : 1 ≤ pageBudget)
    (hok : ∀ j, j < k → ∃ its t, pages j = PageResult.ok its (some t))
    (hend : ∃ its, pages k = PageResult.ok its none) :
    listEvents pages pageBudget
      = (FetchOutcome.done (itemsConcatFrom pages 0 (min (k + 1) pageBudget))
          (if pageBudget ≤ k then pageToken pages (pageBudget - 1) else none),
        min (k + 1) pageBudget) ∧
    ((listEvents pages pageBudget).1.nextOf).isSome = decide (pageBudget ≤ k) := by
  have hok0 : ∀ j, j < k → ∃ its t, pages (0 + j) = PageResult.ok its (some t) := by
    intro j hj
    simpa using hok j hj
  have hend0 : ∃ its, pages (0 + k) = PageResult.ok its none := by simpa using hend
  have hmax : max pageBudget 1 = pageBudget := by omega
  have h := listEventsFrom_ok pages pageBudget 0 k hb hok0 hend0
  rw [Nat.zero_add] at h
  constructor
  · rw [listEvents, hmax, h]
  · rw [listEvents, hmax, h]
    by_cases hck : pageBudget ≤ k
    · obtain ⟨its, t, hp⟩ := hok (pageBudget - 1) (by omega)
      simp [FetchOutcome.nextOf, hck, pageToken, hp]
    · simp [FetchOutcome.nextOf, hck]

/-- C7, witness: with a page budget of 3 and an upstream returning tokens
on pages 1 and 2 but none on page 3, the fetch loop makes exactly 3 calls
and returns all accumulated items with no continuation token. -/
theorem c7_fetcher_budget_witness :
    listEvents scenarioPages 3 = (FetchOutcome.done [10, 20, 30] none, 3) := by
  have hok : ∀ j, j < 2 → ∃ its t,
      scenarioPages j = PageResult.ok its (some t) := by
    intro j hj
    interval_cases j
    · exact ⟨[10], "t1", rfl⟩
    · exact ⟨[20], "t2", rfl⟩
  have h := (c7_fetcher_budget scenarioPages 2 3 (by omega) hok ⟨[30], rfl⟩).1
  rw [h]
  rfl

/-- C8.  Whenever some call of a fetch signals the distinguished
daily-limit error within the page budget (after `m` successful token
pages), `pawsGetLogs` reports the quota-exceeded outcome with an **empty**
record list — the items accumulated from the earlier pages of the same
invocation are discarded — together with the quota-backoff state and the
900-second delay. -/
theorem c8_quota_discards_partial {α : Type} (pollInterval now : Int)
    (s : CollectionState) (pages : Nat → PageResult α) (pageBudget m : Nat)
    (hgate : s.apiQuotaResetDate = none)
    (hm : m < pageBudget)
    (hok : ∀ j, j < m → ∃ its t, pages j = PageResult.ok its (some t))
    (hq : pages m = PageResult.quotaError) :
    pawsGetLogs pollInterval now s pages pageBudget
      = Except.ok ⟨[], quotaNextState now s, 900, m + 1⟩ := by
  have hok0 : ∀ j, j < m → ∃ its t, pages (0 + j) = PageResult.ok its (some t) := by
    intro j hj
    simpa using hok j hj
  have hq0 : pages (0 + m) = PageResult.quotaError := by simpa using hq
  have h := listEventsFrom_quota pages (max pageBudget 1) 0 m (by omega) hok0 hq0
  simp [pawsGetLogs, hgate, pawsGetLogsFetch, listEvents, h, quotaNextState]

/-- C8, witness: page 1 returns an item with a token, page 2 signals the
daily limit — the invocation discards the page-1 item and reports the
quota outcome with no records after 2 calls. -/
theorem c8_quota_discards_partial_witness :
    pawsGetLogs 60 0
      { application := "login", since := 0, until_ := 60000,
        nextPage := none, apiQuotaResetDate := none, poll_interval_sec := 60 }
      quotaOnPage2 3
      = Except.ok
          ⟨[],
           { application := "login", since := 0, until_ := 60000,
             nextPage := none, apiQuotaResetDate := some 28859000,
             poll_interval_sec := 900 },
           900, 2⟩ := by
  have hok : ∀ j, j < 1 → ∃ its t,
      quotaOnPage2 j = PageResult.ok its (some t) := by
    intro j hj
    interval_cases j
    exact ⟨[10], "t1", rfl⟩
  have h := c8_quota_discards_partial 60 0
    { application := "login", since := 0, until_ := 60000,
      nextPage := none, apiQuotaResetDate := none, poll_interval_sec := 60 }
    quotaOnPage2 3 1 rfl (by omega) hok rfl
  rw [h]
  rfl
